import Mathlib

set_option autoImplicit false
set_option maxHeartbeats 1000000

/-!
Shallow embedding of `src/github/util_propertyguru.go` (package `github` of
propertyguru/terraform-provider-github).

The file under verification is a lazily populated read-through cache in front of
the paginated GitHub listing API: an organization-teams loader
(`pgInitializeLocalDataTeams`), a per-team children loader
(`pgInitializeLocalDataTeamRepos`), and three lookup entry points
(`pgGetTeamByTeamId`, `pgGetTeamByTeamSlug`, `pgGetRepoByTeamIDAndRepoName`).

Modelling choices:
- The process-wide mutable variables of the Go file are gathered into one
  explicit state record `PGState`; every embedded function threads it.
- Go maps are association lists with in-place overwrite (`mapSet` replaces the
  first binding of the key); a read of a missing key of a `map[int64]bool`
  yields the zero value `false` (`mapGetD`).
- The API client is an oracle: a pure function from the request arguments to
  the `(slice, response, error)` triple the Go call returns.  `ctx` carries no
  information used by this file and is dropped.
- Execution is sequential.  `sync.Mutex.Lock` on a free mutex acquires it; on a
  mutex that is already held it blocks, and since in a sequential trace no other
  thread can release it, the call never returns (`LoadOutcome.blocked`).
  Calling `Lock` through the nil `*sync.Mutex` obtained from a missing map key
  is a nil-pointer dereference (`LoadOutcome.panicked`).
- The unbounded `for` loops take a fuel parameter; exhausting it yields the
  distinguished `outOfFuel` outcome, which no theorem identifies with any Go
  behaviour.
- Each loader also returns the trace of page fetches it issued (`FetchCall`)
  and the trace of mutexes on which it invoked `Lock` (`MutexId`).
-/

/-- A GitHub team, as used by this file: `team.GetID()`, `team.GetSlug()`, and
otherwise opaque payload. -/
structure Team where
  id : Int
  slug : String
  data : Nat
  deriving Repr, DecidableEq

/-- A GitHub repository, as used by this file: `repo.GetName()` plus opaque
payload. -/
structure Repository where
  name : String
  data : Nat
  deriving Repr, DecidableEq

/-- A Go `error` value as relevant here: either an error coming back from a
page fetch (transport), or a `github.ErrorResponse` built locally around an
`http.Response` with a status code (lines 143, 155, 169 build one with
`StatusCode: http.StatusNotFound`). -/
inductive GoError where
  | transport (msg : String)
  | errorResponse (statusCode : Nat)
  deriving Repr, DecidableEq

/-- The triple stored in the global `pgGetAllTeamsResponse` (lines 20-24):
the last fetched page of teams, the last `*github.Response` (modelled as an
optional token), and the last error. -/
structure PGGetAllTeamsResponse where
  teams : List Team
  resp : Option Nat
  err : Option GoError
  deriving Repr, DecidableEq

/-- The triple stored in the global `pgGetAllTeamReposResponse` (lines 26-30). -/
structure PGGetAllTeamReposResponse where
  repos : List Repository
  resp : Option Nat
  err : Option GoError
  deriving Repr, DecidableEq

/-- Line 33: `var pgGithubOrgName string = "propertyguru"`. -/
def pgGithubOrgName : String := "propertyguru"

/-- Line 34: `var pgGithubOrgId int64 = 1661612`. -/
def pgGithubOrgId : Int := 1661612

/-- The API client collaborator: `client.Teams.ListTeams(ctx, org, opts)` and
`client.Teams.ListTeamReposByID(ctx, orgId, teamId, opts)`, each a pure oracle
from `(…, perPage, page)` to the returned triple. -/
structure Client where
  listTeams : String → Nat → Nat → PGGetAllTeamsResponse
  listTeamReposByID : Int → Int → Nat → Nat → PGGetAllTeamReposResponse

/-- One page fetch issued to the client, with every argument the Go call passes. -/
inductive FetchCall where
  | listTeams (org : String) (perPage page : Nat)
  | listTeamReposByID (orgId teamId : Int) (perPage page : Nat)
  deriving Repr, DecidableEq

/-- Identity of a mutex on which `Lock` is invoked: the single
`pgMutexInitializeLocalDataTeams`, or the per-team entry of
`pgMutexInitializeLocalDataTeamRepos`. -/
inductive MutexId where
  | teams
  | teamRepos (teamId : Int)
  deriving Repr, DecidableEq

/-- Go map read: first binding of the key, `none` when absent. -/
def mapGet {α β : Type} [DecidableEq α] : List (α × β) → α → Option β
  | [], _ => none
  | (k0, v0) :: rest, k => if k0 = k then some v0 else mapGet rest k

/-- Go map write: overwrite the first binding of the key in place, append when
absent. -/
def mapSet {α β : Type} [DecidableEq α] : List (α × β) → α → β → List (α × β)
  | [], k, v => [(k, v)]
  | (k0, v0) :: rest, k, v => if k0 = k then (k, v) :: rest else (k0, v0) :: mapSet rest k v

/-- Go map read with the zero value for a missing key (`pgDoneGetAllTeamRepos[teamID]`
reads `false` when `teamID` is absent). -/
def mapGetD {α β : Type} [DecidableEq α] (m : List (α × β)) (k : α) (d : β) : β :=
  (mapGet m k).getD d

/-- The process-wide mutable variables of the Go file (lines 36-57), as one
explicit state record.  A `Bool` mutex field is `true` while held. -/
structure PGState where
  pgGetAllTeamsResponse : PGGetAllTeamsResponse
  pgGetAllTeamReposResponse : PGGetAllTeamReposResponse
  pgTeamsByTeamId : List (Int × Team)
  pgTeamsByTeamSlug : List (String × Team)
  pgReposByTeamIdAndRepoName : List (Int × List (String × Repository))
  pgMutexInitializeLocalDataTeams : Bool
  pgDoneGetAllTeams : Bool
  pgMutexInitializeLocalDataTeamRepos : List (Int × Bool)
  pgDoneGetAllTeamRepos : List (Int × Bool)
  deriving Repr, DecidableEq

/-- The Go zero values the package variables start from. -/
def pgInitialState : PGState where
  pgGetAllTeamsResponse := { teams := [], resp := none, err := none }
  pgGetAllTeamReposResponse := { repos := [], resp := none, err := none }
  pgTeamsByTeamId := []
  pgTeamsByTeamSlug := []
  pgReposByTeamIdAndRepoName := []
  pgMutexInitializeLocalDataTeams := false
  pgDoneGetAllTeams := false
  pgMutexInitializeLocalDataTeamRepos := []
  pgDoneGetAllTeamRepos := []

/-- Outcome of a call to one of the two ensure-load functions. -/
inductive LoadOutcome where
  | ret (s : PGState) (e : Option GoError)
  | blocked
  | panicked
  | outOfFuel
  deriving Repr, DecidableEq

/-- How the `for` loop of `pgInitializeLocalDataTeams` ends: the early
`return err` of line 77 (which leaves the function, skipping the `Unlock`),
or the `break` of line 88. -/
inductive TeamsLoopExit where
  | errReturn (s : PGState) (e : GoError)
  | broke (s : PGState)
  | outOfFuel
  deriving Repr, DecidableEq

/-- How the `for` loop of `pgInitializeLocalDataTeamRepos` ends: the early
`return err` of line 111, or the `break` of line 119 carrying the local
`mapRepoNameToRepo`. -/
inductive ReposLoopExit where
  | errReturn (s : PGState) (e : GoError)
  | broke (s : PGState) (m : List (String × Repository))
  | outOfFuel
  deriving Repr, DecidableEq

/-- Outcome of a call to one of the three lookup entry points. -/
inductive LookupOutcome (α : Type) where
  | ret (s : PGState) (val : Option α) (resp : Option Nat) (err : Option GoError)
  | blocked
  | panicked
  | outOfFuel
  deriving Repr, DecidableEq

/-- The assignment `pgGetAllTeamsResponse = PGGetAllTeamsResponse{teams, resp, err}`
of line 74. -/
def withTeamsResp (s : PGState) (r : PGGetAllTeamsResponse) : PGState :=
  { s with pgGetAllTeamsResponse := r }

/-- The assignment `pgGetAllTeamReposResponse = PGGetAllTeamReposResponse{repos, resp, err}`
of line 108. -/
def withTeamReposResp (s : PGState) (r : PGGetAllTeamReposResponse) : PGState :=
  { s with pgGetAllTeamReposResponse := r }

/-- Lines 80-85, one iteration of the inner `for`: index the team by id and by
slug, register a fresh (free) per-team mutex and a cleared per-team done flag. -/
def registerTeam (s : PGState) (t : Team) : PGState :=
  { s with
    pgTeamsByTeamId := mapSet s.pgTeamsByTeamId t.id t
    pgTeamsByTeamSlug := mapSet s.pgTeamsByTeamSlug t.slug t
    pgMutexInitializeLocalDataTeamRepos := mapSet s.pgMutexInitializeLocalDataTeamRepos t.id false
    pgDoneGetAllTeamRepos := mapSet s.pgDoneGetAllTeamRepos t.id false }

/-- The inner `for` of lines 80-85 over one fetched page. -/
def registerTeams (s : PGState) (ts : List Team) : PGState :=
  ts.foldl registerTeam s

/-- The `for` loop of lines 71-91: fetch a page with `PerPage: 100`, store the
triple into `pgGetAllTeamsResponse`, early-return on error, otherwise index the
page and continue while the page was full. -/
def pgTeamsLoop (client : Client) (fuel : Nat) (page : Nat) (s : PGState) :
    List FetchCall × TeamsLoopExit :=
  match fuel with
  | 0 => ([], TeamsLoopExit.outOfFuel)
  | fuel + 1 =>
    let r := client.listTeams pgGithubOrgName 100 page
    let s1 := withTeamsResp s r
    match r.err with
    | some e => ([FetchCall.listTeams pgGithubOrgName 100 page], TeamsLoopExit.errReturn s1 e)
    | none =>
      let s2 := registerTeams s1 r.teams
      if r.teams.length < 100 then
        ([FetchCall.listTeams pgGithubOrgName 100 page], TeamsLoopExit.broke s2)
      else
        let next := pgTeamsLoop client fuel (page + 1) s2
        (FetchCall.listTeams pgGithubOrgName 100 page :: next.1, next.2)

/-- Lines 65-96, `pgInitializeLocalDataTeams`: lock the single teams mutex, do
the paginated load unless the done flag is set, set the flag, unlock, return the
stored error.  The early `return` of line 77 reaches the caller with the mutex
still held. -/
def pgInitializeLocalDataTeams (client : Client) (fuel : Nat) (s : PGState) :
    List FetchCall × List MutexId × LoadOutcome :=
  if s.pgMutexInitializeLocalDataTeams then
    ([], [MutexId.teams], LoadOutcome.blocked)
  else
    let s0 := { s with pgMutexInitializeLocalDataTeams := true }
    if s0.pgDoneGetAllTeams then
      ([], [MutexId.teams],
        LoadOutcome.ret { s0 with pgMutexInitializeLocalDataTeams := false }
          s0.pgGetAllTeamsResponse.err)
    else
      match pgTeamsLoop client fuel 1 s0 with
      | (calls, TeamsLoopExit.errReturn s1 e) =>
        (calls, [MutexId.teams], LoadOutcome.ret s1 (some e))
      | (calls, TeamsLoopExit.broke s1) =>
        let s2 := { s1 with pgDoneGetAllTeams := true, pgMutexInitializeLocalDataTeams := false }
        (calls, [MutexId.teams], LoadOutcome.ret s2 s2.pgGetAllTeamsResponse.err)
      | (calls, TeamsLoopExit.outOfFuel) => (calls, [MutexId.teams], LoadOutcome.outOfFuel)

/-- The `for` loop of lines 105-122: fetch a page of the team's repositories
with `PerPage: 100`, store the triple into the global
`pgGetAllTeamReposResponse`, early-return on error, otherwise accumulate the
page into the local `mapRepoNameToRepo` and continue while the page was full. -/
def pgReposLoop (client : Client) (fuel : Nat) (teamID : Int) (page : Nat)
    (m : List (String × Repository)) (s : PGState) : List FetchCall × ReposLoopExit :=
  match fuel with
  | 0 => ([], ReposLoopExit.outOfFuel)
  | fuel + 1 =>
    let r := client.listTeamReposByID pgGithubOrgId teamID 100 page
    let s1 := withTeamReposResp s r
    match r.err with
    | some e =>
      ([FetchCall.listTeamReposByID pgGithubOrgId teamID 100 page], ReposLoopExit.errReturn s1 e)
    | none =>
      let m1 := r.repos.foldl (fun acc repo => mapSet acc repo.name repo) m
      if r.repos.length < 100 then
        ([FetchCall.listTeamReposByID pgGithubOrgId teamID 100 page], ReposLoopExit.broke s1 m1)
      else
        let next := pgReposLoop client fuel teamID (page + 1) m1 s1
        (FetchCall.listTeamReposByID pgGithubOrgId teamID 100 page :: next.1, next.2)

/-- Lines 98-128, `pgInitializeLocalDataTeamRepos`: `Lock` through the map
entry `pgMutexInitializeLocalDataTeamRepos[teamID]` (a nil pointer, hence a
panic, when `teamID` was never registered), do the paginated load of the team's
repositories unless the team's done flag is set, store the built name-index
into `pgReposByTeamIdAndRepoName`, set the flag, unlock, return the globally
stored error.  The early `return` of line 111 reaches the caller with the
team's mutex still held. -/
def pgInitializeLocalDataTeamRepos (client : Client) (fuel : Nat) (s : PGState) (teamID : Int) :
    List FetchCall × List MutexId × LoadOutcome :=
  match mapGet s.pgMutexInitializeLocalDataTeamRepos teamID with
  | none => ([], [], LoadOutcome.panicked)
  | some true => ([], [MutexId.teamRepos teamID], LoadOutcome.blocked)
  | some false =>
    let s0 := { s with
      pgMutexInitializeLocalDataTeamRepos :=
        mapSet s.pgMutexInitializeLocalDataTeamRepos teamID true }
    if mapGetD s0.pgDoneGetAllTeamRepos teamID false then
      ([], [MutexId.teamRepos teamID],
        LoadOutcome.ret
          { s0 with
            pgMutexInitializeLocalDataTeamRepos :=
              mapSet s0.pgMutexInitializeLocalDataTeamRepos teamID false }
          s0.pgGetAllTeamReposResponse.err)
    else
      match pgReposLoop client fuel teamID 1 [] s0 with
      | (calls, ReposLoopExit.errReturn s1 e) =>
        (calls, [MutexId.teamRepos teamID], LoadOutcome.ret s1 (some e))
      | (calls, ReposLoopExit.broke s1 m1) =>
        let s2 := { s1 with
          pgReposByTeamIdAndRepoName := mapSet s1.pgReposByTeamIdAndRepoName teamID m1
          pgDoneGetAllTeamRepos := mapSet s1.pgDoneGetAllTeamRepos teamID true
          pgMutexInitializeLocalDataTeamRepos :=
            mapSet s1.pgMutexInitializeLocalDataTeamRepos teamID false }
        (calls, [MutexId.teamRepos teamID], LoadOutcome.ret s2 s2.pgGetAllTeamReposResponse.err)
      | (calls, ReposLoopExit.outOfFuel) =>
        (calls, [MutexId.teamRepos teamID], LoadOutcome.outOfFuel)

/-- Lines 136-146, `pgGetTeamByTeamId`: drive the teams loader discarding its
returned error, then consult the by-id index; on a hit return the team together
with the globally stored response and error, otherwise return the stored error,
replaced by a synthesized 404 `ErrorResponse` when it is nil. -/
def pgGetTeamByTeamId (client : Client) (fuel : Nat) (s : PGState) (id : Int) :
    List FetchCall × List MutexId × LookupOutcome Team :=
  match pgInitializeLocalDataTeams client fuel s with
  | (calls, locks, LoadOutcome.ret s1 _) =>
    (calls, locks,
      match mapGet s1.pgTeamsByTeamId id with
      | some team =>
        LookupOutcome.ret s1 (some team) s1.pgGetAllTeamsResponse.resp
          s1.pgGetAllTeamsResponse.err
      | none =>
        match s1.pgGetAllTeamsResponse.err with
        | some e => LookupOutcome.ret s1 none s1.pgGetAllTeamsResponse.resp (some e)
        | none =>
          LookupOutcome.ret s1 none s1.pgGetAllTeamsResponse.resp
            (some (GoError.errorResponse 404)))
  | (calls, locks, LoadOutcome.blocked) => (calls, locks, LookupOutcome.blocked)
  | (calls, locks, LoadOutcome.panicked) => (calls, locks, LookupOutcome.panicked)
  | (calls, locks, LoadOutcome.outOfFuel) => (calls, locks, LookupOutcome.outOfFuel)

/-- Lines 148-158, `pgGetTeamByTeamSlug`: as `pgGetTeamByTeamId` with the
by-slug index. -/
def pgGetTeamByTeamSlug (client : Client) (fuel : Nat) (s : PGState) (slug : String) :
    List FetchCall × List MutexId × LookupOutcome Team :=
  match pgInitializeLocalDataTeams client fuel s with
  | (calls, locks, LoadOutcome.ret s1 _) =>
    (calls, locks,
      match mapGet s1.pgTeamsByTeamSlug slug with
      | some team =>
        LookupOutcome.ret s1 (some team) s1.pgGetAllTeamsResponse.resp
          s1.pgGetAllTeamsResponse.err
      | none =>
        match s1.pgGetAllTeamsResponse.err with
        | some e => LookupOutcome.ret s1 none s1.pgGetAllTeamsResponse.resp (some e)
        | none =>
          LookupOutcome.ret s1 none s1.pgGetAllTeamsResponse.resp
            (some (GoError.errorResponse 404)))
  | (calls, locks, LoadOutcome.blocked) => (calls, locks, LookupOutcome.blocked)
  | (calls, locks, LoadOutcome.panicked) => (calls, locks, LookupOutcome.panicked)
  | (calls, locks, LoadOutcome.outOfFuel) => (calls, locks, LookupOutcome.outOfFuel)

/-- Lines 160-172, `pgGetRepoByTeamIDAndRepoName`: drive the team's children
loader discarding its returned error, then consult the team's entry of the
concurrent map and the name within it; on a hit return the repository together
with the globally stored response and error, otherwise return the stored error,
replaced by a synthesized 404 `ErrorResponse` when it is nil. -/
def pgGetRepoByTeamIDAndRepoName (client : Client) (fuel : Nat) (s : PGState)
    (teamID : Int) (repoName : String) :
    List FetchCall × List MutexId × LookupOutcome Repository :=
  match pgInitializeLocalDataTeamRepos client fuel s teamID with
  | (calls, locks, LoadOutcome.ret s1 _) =>
    (calls, locks,
      match (mapGet s1.pgReposByTeamIdAndRepoName teamID).bind
          (fun m => mapGet m repoName) with
      | some repo =>
        LookupOutcome.ret s1 (some repo) s1.pgGetAllTeamReposResponse.resp
          s1.pgGetAllTeamReposResponse.err
      | none =>
        match s1.pgGetAllTeamReposResponse.err with
        | some e => LookupOutcome.ret s1 none s1.pgGetAllTeamReposResponse.resp (some e)
        | none =>
          LookupOutcome.ret s1 none s1.pgGetAllTeamReposResponse.resp
            (some (GoError.errorResponse 404)))
  | (calls, locks, LoadOutcome.blocked) => (calls, locks, LookupOutcome.blocked)
  | (calls, locks, LoadOutcome.panicked) => (calls, locks, LookupOutcome.panicked)
  | (calls, locks, LoadOutcome.outOfFuel) => (calls, locks, LookupOutcome.outOfFuel)

/-- The state carried by a `ret` outcome (defaulting to the initial state). -/
def loadState : LoadOutcome → PGState
  | LoadOutcome.ret s _ => s
  | _ => pgInitialState

/-- The error carried by a `ret` outcome. -/
def loadErr : LoadOutcome → Option GoError
  | LoadOutcome.ret _ e => e
  | _ => none

/-- The value component of a lookup outcome. -/
def lookupVal {α : Type} : LookupOutcome α → Option α
  | LookupOutcome.ret _ v _ _ => v
  | _ => none

/-- The response component of a lookup outcome. -/
def lookupResp {α : Type} : LookupOutcome α → Option Nat
  | LookupOutcome.ret _ _ r _ => r
  | _ => none

/-- The error component of a lookup outcome. -/
def lookupErr {α : Type} : LookupOutcome α → Option GoError
  | LookupOutcome.ret _ _ _ e => e
  | _ => none

/-- The concatenation of `count` successive pages of the teams listing,
starting at 1-based page `page`. -/
def teamsPages (client : Client) (page : Nat) : Nat → List Team
  | 0 => []
  | count + 1 =>
    (client.listTeams pgGithubOrgName 100 page).teams ++ teamsPages client (page + 1) count

/-! ### Association-list lemmas -/

theorem mapGet_mapSet_self {α β : Type} [DecidableEq α] (m : List (α × β)) (k : α) (v : β) :
    mapGet (mapSet m k v) k = some v := by
  induction m with
  | nil => simp [mapGet, mapSet]
  | cons hd tl ih =>
    obtain ⟨k0, v0⟩ := hd
    by_cases h : k0 = k
    · simp [mapGet, mapSet, h]
    · simp [mapGet, mapSet, h, ih]

theorem mapGet_mapSet_ne {α β : Type} [DecidableEq α] (m : List (α × β)) (k k2 : α) (v : β)
    (h : k ≠ k2) : mapGet (mapSet m k v) k2 = mapGet m k2 := by
  induction m with
  | nil => simp [mapGet, mapSet, h]
  | cons hd tl ih =>
    obtain ⟨k0, v0⟩ := hd
    by_cases h0 : k0 = k
    · subst h0
      simp [mapGet, mapSet, h]
    · have h2 : ¬(k2 = k) := fun hh => h hh.symm
      by_cases h3 : k0 = k2 <;> simp [mapGet, mapSet, h0, h3, h2, ih]

theorem mapSet_mapSet {α β : Type} [DecidableEq α] (m : List (α × β)) (k : α) (v w : β) :
    mapSet (mapSet m k v) k w = mapSet m k w := by
  induction m with
  | nil => simp [mapSet]
  | cons hd tl ih =>
    obtain ⟨k0, v0⟩ := hd
    by_cases h : k0 = k
    · simp [mapSet, h]
    · simp [mapSet, h, ih]

theorem mapSet_eq_of_mapGet {α β : Type} [DecidableEq α] (m : List (α × β)) (k : α) (v : β)
    (h : mapGet m k = some v) : mapSet m k v = m := by
  induction m with
  | nil => simp [mapGet] at h
  | cons hd tl ih =>
    obtain ⟨k0, v0⟩ := hd
    by_cases h0 : k0 = k
    · subst h0
      simp [mapGet] at h
      simp [mapSet, h]
    · simp [mapGet, h0] at h
      simp [mapSet, h0, ih h]

theorem mapGet_mapSet_isSome {α β : Type} [DecidableEq α] (m : List (α × β)) (k k2 : α) (v : β)
    (h : (mapGet m k2).isSome = true) : (mapGet (mapSet m k v) k2).isSome = true := by
  by_cases hk : k = k2
  · subst hk
    simp [mapGet_mapSet_self]
  · rwa [mapGet_mapSet_ne m k k2 v hk]

/-! ### `registerTeams` lemmas -/

theorem registerTeams_nil (s : PGState) : registerTeams s [] = s := rfl

theorem registerTeams_cons (s : PGState) (t : Team) (ts : List Team) :
    registerTeams s (t :: ts) = registerTeams (registerTeam s t) ts := rfl

theorem registerTeams_append (s : PGState) (ts us : List Team) :
    registerTeams s (ts ++ us) = registerTeams (registerTeams s ts) us := by
  simp [registerTeams, List.foldl_append]

theorem registerTeam_setResp (s : PGState) (t : Team) (r : PGGetAllTeamsResponse) :
    registerTeam (withTeamsResp s r) t = withTeamsResp (registerTeam s t) r := by
  cases s
  rfl

theorem registerTeams_setResp (ts : List Team) (s : PGState) (r : PGGetAllTeamsResponse) :
    registerTeams (withTeamsResp s r) ts = withTeamsResp (registerTeams s ts) r := by
  induction ts generalizing s with
  | nil => rfl
  | cons t ts ih => rw [registerTeams_cons, registerTeam_setResp, ih, registerTeams_cons]

theorem setResp_setResp (s : PGState) (r r2 : PGGetAllTeamsResponse) :
    withTeamsResp (withTeamsResp s r) r2 = withTeamsResp s r2 := by
  cases s
  rfl

theorem registerTeams_pgGetAllTeamsResponse (ts : List Team) (s : PGState) :
    (registerTeams s ts).pgGetAllTeamsResponse = s.pgGetAllTeamsResponse := by
  induction ts generalizing s with
  | nil => rfl
  | cons t ts ih => rw [registerTeams_cons, ih]; rfl

theorem registerTeams_pgGetAllTeamReposResponse (ts : List Team) (s : PGState) :
    (registerTeams s ts).pgGetAllTeamReposResponse = s.pgGetAllTeamReposResponse := by
  induction ts generalizing s with
  | nil => rfl
  | cons t ts ih => rw [registerTeams_cons, ih]; rfl

theorem registerTeams_pgDoneGetAllTeams (ts : List Team) (s : PGState) :
    (registerTeams s ts).pgDoneGetAllTeams = s.pgDoneGetAllTeams := by
  induction ts generalizing s with
  | nil => rfl
  | cons t ts ih => rw [registerTeams_cons, ih]; rfl

theorem registerTeams_pgMutexInitializeLocalDataTeams (ts : List Team) (s : PGState) :
    (registerTeams s ts).pgMutexInitializeLocalDataTeams =
      s.pgMutexInitializeLocalDataTeams := by
  induction ts generalizing s with
  | nil => rfl
  | cons t ts ih => rw [registerTeams_cons, ih]; rfl

theorem registerTeams_pgReposByTeamIdAndRepoName (ts : List Team) (s : PGState) :
    (registerTeams s ts).pgReposByTeamIdAndRepoName = s.pgReposByTeamIdAndRepoName := by
  induction ts generalizing s with
  | nil => rfl
  | cons t ts ih => rw [registerTeams_cons, ih]; rfl

theorem registerTeam_pgTeamsByTeamId (s : PGState) (t : Team) :
    (registerTeam s t).pgTeamsByTeamId = mapSet s.pgTeamsByTeamId t.id t := rfl

theorem registerTeam_pgTeamsByTeamSlug (s : PGState) (t : Team) :
    (registerTeam s t).pgTeamsByTeamSlug = mapSet s.pgTeamsByTeamSlug t.slug t := rfl

theorem mapGet_registerTeams_byId_of_forall_ne (ts : List Team) (s : PGState) (i : Int)
    (h : ∀ t ∈ ts, t.id ≠ i) :
    mapGet (registerTeams s ts).pgTeamsByTeamId i = mapGet s.pgTeamsByTeamId i := by
  induction ts generalizing s with
  | nil => rfl
  | cons t ts ih =>
    rw [registerTeams_cons, ih _ (fun u hu => h u (List.mem_cons_of_mem t hu)),
      registerTeam_pgTeamsByTeamId,
      mapGet_mapSet_ne _ _ _ _ (h t (List.mem_cons_self t ts))]

theorem mapGet_registerTeams_bySlug_of_forall_ne (ts : List Team) (s : PGState) (sl : String)
    (h : ∀ t ∈ ts, t.slug ≠ sl) :
    mapGet (registerTeams s ts).pgTeamsByTeamSlug sl = mapGet s.pgTeamsByTeamSlug sl := by
  induction ts generalizing s with
  | nil => rfl
  | cons t ts ih =>
    rw [registerTeams_cons, ih _ (fun u hu => h u (List.mem_cons_of_mem t hu)),
      registerTeam_pgTeamsByTeamSlug,
      mapGet_mapSet_ne _ _ _ _ (h t (List.mem_cons_self t ts))]

theorem mapGet_registerTeams_byId_unique (ts : List Team) (s : PGState) (t : Team)
    (hm : t ∈ ts) (hu : ∀ u ∈ ts, u.id = t.id → u = t) :
    mapGet (registerTeams s ts).pgTeamsByTeamId t.id = some t := by
  induction ts generalizing s with
  | nil => cases hm
  | cons u us ih =>
    by_cases hmem : t ∈ us
    · exact ih (registerTeam s u) hmem
        (fun v hv hid => hu v (List.mem_cons_of_mem u hv) hid)
    · have htu : t = u := by
        rcases List.mem_cons.mp hm with h | h
        · exact h
        · exact absurd h hmem
      have hne : ∀ v ∈ us, v.id ≠ t.id := by
        intro v hv hid
        exact hmem (hu v (List.mem_cons_of_mem u hv) hid ▸ hv)
      rw [registerTeams_cons, mapGet_registerTeams_byId_of_forall_ne us _ _ hne,
        registerTeam_pgTeamsByTeamId, ← htu, mapGet_mapSet_self]

theorem mapGet_registerTeams_bySlug_unique (ts : List Team) (s : PGState) (t : Team)
    (hm : t ∈ ts) (hu : ∀ u ∈ ts, u.slug = t.slug → u = t) :
    mapGet (registerTeams s ts).pgTeamsByTeamSlug t.slug = some t := by
  induction ts generalizing s with
  | nil => cases hm
  | cons u us ih =>
    by_cases hmem : t ∈ us
    · exact ih (registerTeam s u) hmem
        (fun v hv hsl => hu v (List.mem_cons_of_mem u hv) hsl)
    · have htu : t = u := by
        rcases List.mem_cons.mp hm with h | h
        · exact h
        · exact absurd h hmem
      have hne : ∀ v ∈ us, v.slug ≠ t.slug := by
        intro v hv hsl
        exact hmem (hu v (List.mem_cons_of_mem u hv) hsl ▸ hv)
      rw [registerTeams_cons, mapGet_registerTeams_bySlug_of_forall_ne us _ _ hne,
        registerTeam_pgTeamsByTeamSlug, ← htu, mapGet_mapSet_self]

theorem registerTeams_byId_isSome_mono (ts : List Team) (s : PGState) (i : Int)
    (h : (mapGet s.pgTeamsByTeamId i).isSome = true) :
    (mapGet (registerTeams s ts).pgTeamsByTeamId i).isSome = true := by
  induction ts generalizing s with
  | nil => exact h
  | cons t ts ih =>
    rw [registerTeams_cons]
    exact ih _ (by rw [registerTeam_pgTeamsByTeamId]; exact mapGet_mapSet_isSome _ _ _ _ h)

theorem registerTeams_bySlug_isSome_mono (ts : List Team) (s : PGState) (sl : String)
    (h : (mapGet s.pgTeamsByTeamSlug sl).isSome = true) :
    (mapGet (registerTeams s ts).pgTeamsByTeamSlug sl).isSome = true := by
  induction ts generalizing s with
  | nil => exact h
  | cons t ts ih =>
    rw [registerTeams_cons]
    exact ih _ (by rw [registerTeam_pgTeamsByTeamSlug]; exact mapGet_mapSet_isSome _ _ _ _ h)

theorem mapGet_registerTeams_byId_isSome (ts : List Team) (s : PGState) (t : Team)
    (hm : t ∈ ts) : (mapGet (registerTeams s ts).pgTeamsByTeamId t.id).isSome = true := by
  induction ts generalizing s with
  | nil => cases hm
  | cons u us ih =>
    rcases List.mem_cons.mp hm with h | h
    · subst h
      rw [registerTeams_cons]
      exact registerTeams_byId_isSome_mono us _ _
        (by rw [registerTeam_pgTeamsByTeamId, mapGet_mapSet_self]; rfl)
    · rw [registerTeams_cons]; exact ih _ h

theorem mapGet_registerTeams_bySlug_isSome (ts : List Team) (s : PGState) (t : Team)
    (hm : t ∈ ts) : (mapGet (registerTeams s ts).pgTeamsByTeamSlug t.slug).isSome = true := by
  induction ts generalizing s with
  | nil => cases hm
  | cons u us ih =>
    rcases List.mem_cons.mp hm with h | h
    · subst h
      rw [registerTeams_cons]
      exact registerTeams_bySlug_isSome_mono us _ _
        (by rw [registerTeam_pgTeamsByTeamSlug, mapGet_mapSet_self]; rfl)
    · rw [registerTeams_cons]; exact ih _ h

/-! ### Fast paths of the two ensure-load functions when the completion flag is set -/

theorem pgInitializeLocalDataTeams_done (client : Client) (fuel : Nat) (s : PGState)
    (hm : s.pgMutexInitializeLocalDataTeams = false) (hd : s.pgDoneGetAllTeams = true) :
    pgInitializeLocalDataTeams client fuel s =
      ([], [MutexId.teams], LoadOutcome.ret s s.pgGetAllTeamsResponse.err) := by
  obtain ⟨a1, a2, a3, a4, a5, a6, a7, a8, a9⟩ := s
  simp only at hm hd
  subst hm
  subst hd
  simp [pgInitializeLocalDataTeams]

theorem pgInitializeLocalDataTeamRepos_done (client : Client) (fuel : Nat) (s : PGState)
    (teamID : Int)
    (hm : mapGet s.pgMutexInitializeLocalDataTeamRepos teamID = some false)
    (hd : mapGetD s.pgDoneGetAllTeamRepos teamID false = true) :
    pgInitializeLocalDataTeamRepos client fuel s teamID =
      ([], [MutexId.teamRepos teamID],
        LoadOutcome.ret s s.pgGetAllTeamReposResponse.err) := by
  obtain ⟨a1, a2, a3, a4, a5, a6, a7, a8, a9⟩ := s
  simp only at hm hd
  simp [pgInitializeLocalDataTeamRepos, hm, hd, mapSet_mapSet, mapSet_eq_of_mapGet _ _ _ hm]

/-! ### Closed form of the teams pagination loop -/

theorem pgTeamsLoop_spec (client : Client) (n : Nat) :
    ∀ (p fuel : Nat) (s : PGState),
    (∀ i, i < n → (client.listTeams pgGithubOrgName 100 (p + i)).err = none ∧
        100 ≤ (client.listTeams pgGithubOrgName 100 (p + i)).teams.length) →
    (client.listTeams pgGithubOrgName 100 (p + n)).err = none →
    (client.listTeams pgGithubOrgName 100 (p + n)).teams.length < 100 →
    n < fuel →
    pgTeamsLoop client fuel p s =
      ((List.range (n + 1)).map (fun i => FetchCall.listTeams pgGithubOrgName 100 (p + i)),
       TeamsLoopExit.broke
         (withTeamsResp (registerTeams s (teamsPages client p (n + 1)))
           (client.listTeams pgGithubOrgName 100 (p + n)))) := by
  induction n with
  | zero =>
    intro p fuel s _ herr hshort hfuel
    obtain ⟨f, rfl⟩ : ∃ f, fuel = f + 1 := ⟨fuel - 1, by omega⟩
    rw [Nat.add_zero] at herr hshort
    simp only [pgTeamsLoop, herr, hshort, if_pos]
    have hcalls : [FetchCall.listTeams pgGithubOrgName 100 p] =
        (List.range (0 + 1)).map (fun i => FetchCall.listTeams pgGithubOrgName 100 (p + i)) := by
      simp [List.range_succ]
    have hpage : teamsPages client p (0 + 1) =
        (client.listTeams pgGithubOrgName 100 p).teams := by
      simp [teamsPages]
    have hstate :
        registerTeams (withTeamsResp s (client.listTeams pgGithubOrgName 100 p))
          (client.listTeams pgGithubOrgName 100 p).teams =
        withTeamsResp (registerTeams s (teamsPages client p (0 + 1)))
          (client.listTeams pgGithubOrgName 100 (p + 0)) := by
      rw [hpage, registerTeams_setResp]
      rfl
    rw [Prod.mk.injEq]
    exact ⟨hcalls, congrArg TeamsLoopExit.broke hstate⟩
  | succ n ih =>
    intro p fuel s hlong herr hshort hfuel
    obtain ⟨f, rfl⟩ : ∃ f, fuel = f + 1 := ⟨fuel - 1, by omega⟩
    have h0 := hlong 0 (Nat.succ_pos n)
    rw [Nat.add_zero] at h0
    have hnotshort : ¬((client.listTeams pgGithubOrgName 100 p).teams.length < 100) := by
      omega
    simp only [pgTeamsLoop, h0.1, hnotshort, if_neg, if_false]
    have hidx : ∀ i : Nat, p + 1 + i = p + (i + 1) := by omega
    have ihh := ih (p + 1) f
      (registerTeams (withTeamsResp s (client.listTeams pgGithubOrgName 100 p))
        (client.listTeams pgGithubOrgName 100 p).teams)
      (fun i hi => by rw [hidx i]; exact hlong (i + 1) (by omega))
      (by rw [hidx n]; exact herr)
      (by rw [hidx n]; exact hshort)
      (by omega)
    rw [ihh]
    have hfun : (fun i => FetchCall.listTeams pgGithubOrgName 100 (p + 1 + i)) =
        ((fun i => FetchCall.listTeams pgGithubOrgName 100 (p + i)) ∘ Nat.succ) := by
      funext i
      simp only [Function.comp_apply]
      congr 1
      omega
    have hcalls : (FetchCall.listTeams pgGithubOrgName 100 p ::
        (List.range (n + 1)).map (fun i => FetchCall.listTeams pgGithubOrgName 100 (p + 1 + i))) =
        (List.range (n + 1 + 1)).map (fun i => FetchCall.listTeams pgGithubOrgName 100 (p + i)) := by
      conv_rhs => rw [List.range_succ_eq_map]
      simp only [List.map_cons, List.map_map, Nat.add_zero, hfun]
    have hstate :
        withTeamsResp
          (registerTeams
            (registerTeams (withTeamsResp s (client.listTeams pgGithubOrgName 100 p))
              (client.listTeams pgGithubOrgName 100 p).teams)
            (teamsPages client (p + 1) (n + 1)))
          (client.listTeams pgGithubOrgName 100 (p + 1 + n)) =
        withTeamsResp (registerTeams s (teamsPages client p (n + 1 + 1)))
          (client.listTeams pgGithubOrgName 100 (p + (n + 1))) := by
      rw [registerTeams_setResp, registerTeams_setResp, setResp_setResp, hidx n]
      rw [show teamsPages client p (n + 1 + 1) =
          (client.listTeams pgGithubOrgName 100 p).teams ++ teamsPages client (p + 1) (n + 1)
          from rfl, registerTeams_append]
    simp only [Prod.mk.injEq]
    exact ⟨hcalls, congrArg TeamsLoopExit.broke hstate⟩

/-- The state produced by a complete, successful, first teams load from state
`s`: all pages indexed, the last page's triple stored, the completion flag set
and the mutex released. -/
def pgTeamsLoadedState (client : Client) (n : Nat) (s : PGState) : PGState :=
  { withTeamsResp
      (registerTeams { s with pgMutexInitializeLocalDataTeams := true }
        (teamsPages client 1 (n + 1)))
      (client.listTeams pgGithubOrgName 100 (1 + n)) with
    pgDoneGetAllTeams := true, pgMutexInitializeLocalDataTeams := false }

/-- Closed form of a complete, successful, first `pgInitializeLocalDataTeams`
run: `n + 1` pages are fetched (pages `1` to `1 + n`), every fetched team is
registered, the completion flag is set and the mutex released. -/
theorem pgInitializeLocalDataTeams_spec (client : Client) (fuel n : Nat) (s : PGState)
    (hm : s.pgMutexInitializeLocalDataTeams = false)
    (hd : s.pgDoneGetAllTeams = false)
    (hlong : ∀ i, i < n → (client.listTeams pgGithubOrgName 100 (1 + i)).err = none ∧
        100 ≤ (client.listTeams pgGithubOrgName 100 (1 + i)).teams.length)
    (herr : (client.listTeams pgGithubOrgName 100 (1 + n)).err = none)
    (hshort : (client.listTeams pgGithubOrgName 100 (1 + n)).teams.length < 100)
    (hfuel : n < fuel) :
    pgInitializeLocalDataTeams client fuel s =
      ((List.range (n + 1)).map (fun i => FetchCall.listTeams pgGithubOrgName 100 (1 + i)),
       [MutexId.teams],
       LoadOutcome.ret (pgTeamsLoadedState client n s) none) := by
  have hloop := pgTeamsLoop_spec client n 1 fuel
    { s with pgMutexInitializeLocalDataTeams := true } hlong herr hshort hfuel
  rw [hd] at hloop
  simp only [pgInitializeLocalDataTeams, hm, hd, Bool.false_eq_true, if_false, hloop,
    pgTeamsLoadedState]
  simp [withTeamsResp, herr]

/-- A by-id lookup in a state whose teams load has completed without error and
whose index contains the key. -/
theorem pgGetTeamByTeamId_found (client : Client) (fuel : Nat) (s1 : PGState) (id : Int)
    (t : Team) (hmux : s1.pgMutexInitializeLocalDataTeams = false)
    (hdone : s1.pgDoneGetAllTeams = true)
    (herrnil : s1.pgGetAllTeamsResponse.err = none)
    (hfind : mapGet s1.pgTeamsByTeamId id = some t) :
    pgGetTeamByTeamId client fuel s1 id =
      ([], [MutexId.teams],
        LookupOutcome.ret s1 (some t) s1.pgGetAllTeamsResponse.resp none) := by
  simp only [pgGetTeamByTeamId, pgInitializeLocalDataTeams_done client fuel s1 hmux hdone,
    hfind, herrnil]

/-- A by-slug lookup in a state whose teams load has completed without error and
whose index contains the key. -/
theorem pgGetTeamByTeamSlug_found (client : Client) (fuel : Nat) (s1 : PGState) (slug : String)
    (t : Team) (hmux : s1.pgMutexInitializeLocalDataTeams = false)
    (hdone : s1.pgDoneGetAllTeams = true)
    (herrnil : s1.pgGetAllTeamsResponse.err = none)
    (hfind : mapGet s1.pgTeamsByTeamSlug slug = some t) :
    pgGetTeamByTeamSlug client fuel s1 slug =
      ([], [MutexId.teams],
        LookupOutcome.ret s1 (some t) s1.pgGetAllTeamsResponse.resp none) := by
  simp only [pgGetTeamByTeamSlug, pgInitializeLocalDataTeams_done client fuel s1 hmux hdone,
    hfind, herrnil]

/-- C6: under the precondition that page `1 + n` of the upstream teams listing
is the first page returning fewer than 100 items (and no page errors), the
teams load loop terminates, issues exactly the `n + 1` page requests
`1, 2, …, 1 + n`, each with fixed page size 100, and every team returned on any
fetched page ends up in both indices of the resulting state. -/
theorem c6_teams_pagination_terminates (client : Client) (fuel n : Nat) (s : PGState)
    (hm : s.pgMutexInitializeLocalDataTeams = false)
    (hd : s.pgDoneGetAllTeams = false)
    (hlong : ∀ i, i < n → (client.listTeams pgGithubOrgName 100 (1 + i)).err = none ∧
        100 ≤ (client.listTeams pgGithubOrgName 100 (1 + i)).teams.length)
    (herr : (client.listTeams pgGithubOrgName 100 (1 + n)).err = none)
    (hshort : (client.listTeams pgGithubOrgName 100 (1 + n)).teams.length < 100)
    (hfuel : n < fuel) :
    ∃ s1,
      pgInitializeLocalDataTeams client fuel s =
        ((List.range (n + 1)).map (fun i => FetchCall.listTeams pgGithubOrgName 100 (1 + i)),
         [MutexId.teams], LoadOutcome.ret s1 none) ∧
      (pgInitializeLocalDataTeams client fuel s).1.length = n + 1 ∧
      (∀ t ∈ teamsPages client 1 (n + 1),
        (mapGet s1.pgTeamsByTeamId t.id).isSome = true ∧
        (mapGet s1.pgTeamsByTeamSlug t.slug).isSome = true) := by
  refine ⟨_, pgInitializeLocalDataTeams_spec client fuel n s hm hd hlong herr hshort hfuel,
    ?_, ?_⟩
  · rw [pgInitializeLocalDataTeams_spec client fuel n s hm hd hlong herr hshort hfuel]
    simp
  · intro t ht
    exact ⟨mapGet_registerTeams_byId_isSome (teamsPages client 1 (n + 1)) _ t ht,
      mapGet_registerTeams_bySlug_isSome (teamsPages client 1 (n + 1)) _ t ht⟩

/-- C4: after a successful organization-teams load, provided team identifiers
and slugs are unique in the fetched set, every fetched team `t` is returned by
both `pgGetTeamByTeamId` on `t.id` and `pgGetTeamByTeamSlug` on `t.slug`, with
a nil error, the two indices having been populated from the same load pass. -/
theorem c4_team_index_consistency (client : Client) (fuel n : Nat) (s : PGState)
    (hm : s.pgMutexInitializeLocalDataTeams = false)
    (hd : s.pgDoneGetAllTeams = false)
    (hlong : ∀ i, i < n → (client.listTeams pgGithubOrgName 100 (1 + i)).err = none ∧
        100 ≤ (client.listTeams pgGithubOrgName 100 (1 + i)).teams.length)
    (herr : (client.listTeams pgGithubOrgName 100 (1 + n)).err = none)
    (hshort : (client.listTeams pgGithubOrgName 100 (1 + n)).teams.length < 100)
    (hfuel : n < fuel)
    (huid : ∀ t ∈ teamsPages client 1 (n + 1), ∀ u ∈ teamsPages client 1 (n + 1),
      u.id = t.id → u = t)
    (huslug : ∀ t ∈ teamsPages client 1 (n + 1), ∀ u ∈ teamsPages client 1 (n + 1),
      u.slug = t.slug → u = t) :
    ∃ s1,
      (pgInitializeLocalDataTeams client fuel s).2.2 = LoadOutcome.ret s1 none ∧
      ∀ t ∈ teamsPages client 1 (n + 1), ∀ fuel2 : Nat,
        pgGetTeamByTeamId client fuel2 s1 t.id =
          ([], [MutexId.teams],
            LookupOutcome.ret s1 (some t) s1.pgGetAllTeamsResponse.resp none) ∧
        pgGetTeamByTeamSlug client fuel2 s1 t.slug =
          ([], [MutexId.teams],
            LookupOutcome.ret s1 (some t) s1.pgGetAllTeamsResponse.resp none) := by
  refine ⟨pgTeamsLoadedState client n s, ?_, ?_⟩
  · rw [pgInitializeLocalDataTeams_spec client fuel n s hm hd hlong herr hshort hfuel]
  · intro t ht fuel2
    constructor
    · apply pgGetTeamByTeamId_found
      · rfl
      · rfl
      · exact herr
      · exact mapGet_registerTeams_byId_unique _ _ _ ht (huid t ht)
    · apply pgGetTeamByTeamSlug_found
      · rfl
      · rfl
      · exact herr
      · exact mapGet_registerTeams_bySlug_unique _ _ _ ht (huslug t ht)

/-- A by-id lookup in a state whose teams load has completed without error and
whose index lacks the key: the 404 `ErrorResponse` is synthesized. -/
theorem pgGetTeamByTeamId_notfound (client : Client) (fuel : Nat) (s1 : PGState) (id : Int)
    (hmux : s1.pgMutexInitializeLocalDataTeams = false)
    (hdone : s1.pgDoneGetAllTeams = true)
    (herrnil : s1.pgGetAllTeamsResponse.err = none)
    (habs : mapGet s1.pgTeamsByTeamId id = none) :
    pgGetTeamByTeamId client fuel s1 id =
      ([], [MutexId.teams],
        LookupOutcome.ret s1 none s1.pgGetAllTeamsResponse.resp
          (some (GoError.errorResponse 404))) := by
  simp only [pgGetTeamByTeamId, pgInitializeLocalDataTeams_done client fuel s1 hmux hdone,
    habs, herrnil]

/-- A by-slug lookup in a state whose teams load has completed without error and
whose index lacks the key. -/
theorem pgGetTeamByTeamSlug_notfound (client : Client) (fuel : Nat) (s1 : PGState) (slug : String)
    (hmux : s1.pgMutexInitializeLocalDataTeams = false)
    (hdone : s1.pgDoneGetAllTeams = true)
    (herrnil : s1.pgGetAllTeamsResponse.err = none)
    (habs : mapGet s1.pgTeamsByTeamSlug slug = none) :
    pgGetTeamByTeamSlug client fuel s1 slug =
      ([], [MutexId.teams],
        LookupOutcome.ret s1 none s1.pgGetAllTeamsResponse.resp
          (some (GoError.errorResponse 404))) := by
  simp only [pgGetTeamByTeamSlug, pgInitializeLocalDataTeams_done client fuel s1 hmux hdone,
    habs, herrnil]

/-- A repository lookup for a team whose children load has completed, in a state
whose global repos holder has no error, when the key is absent. -/
theorem pgGetRepoByTeamIDAndRepoName_notfound (client : Client) (fuel : Nat) (s1 : PGState)
    (teamID : Int) (name : String)
    (hmr : mapGet s1.pgMutexInitializeLocalDataTeamRepos teamID = some false)
    (hdr : mapGetD s1.pgDoneGetAllTeamRepos teamID false = true)
    (herrnil : s1.pgGetAllTeamReposResponse.err = none)
    (habs : (mapGet s1.pgReposByTeamIdAndRepoName teamID).bind (fun m => mapGet m name) = none) :
    pgGetRepoByTeamIDAndRepoName client fuel s1 teamID name =
      ([], [MutexId.teamRepos teamID],
        LookupOutcome.ret s1 none s1.pgGetAllTeamReposResponse.resp
          (some (GoError.errorResponse 404))) := by
  simp only [pgGetRepoByTeamIDAndRepoName,
    pgInitializeLocalDataTeamRepos_done client fuel s1 teamID hmr hdr, habs, herrnil]

/-- A client every one of whose pages is empty and error-free. -/
def clientEmpty : Client where
  listTeams := fun _ _ _ => { teams := [], resp := none, err := none }
  listTeamReposByID := fun _ _ _ _ => { repos := [], resp := none, err := none }

/-- C7: once a load's completion flag is set (organization teams, or a given
team's children) with its mutex free, the corresponding ensure-load call
performs zero page fetches, leaves the whole state (in particular every index)
unchanged, and returns the globally stored error of the last load, which is nil
when the last load succeeded. -/
theorem c7_load_at_most_once (client : Client) (fuel : Nat) (s : PGState) (teamID : Int)
    (hm : s.pgMutexInitializeLocalDataTeams = false)
    (hd : s.pgDoneGetAllTeams = true)
    (hmr : mapGet s.pgMutexInitializeLocalDataTeamRepos teamID = some false)
    (hdr : mapGetD s.pgDoneGetAllTeamRepos teamID false = true) :
    pgInitializeLocalDataTeams client fuel s =
      ([], [MutexId.teams], LoadOutcome.ret s s.pgGetAllTeamsResponse.err) ∧
    pgInitializeLocalDataTeamRepos client fuel s teamID =
      ([], [MutexId.teamRepos teamID], LoadOutcome.ret s s.pgGetAllTeamReposResponse.err) ∧
    (s.pgGetAllTeamsResponse.err = none →
      loadErr (pgInitializeLocalDataTeams client fuel s).2.2 = none) ∧
    (s.pgGetAllTeamReposResponse.err = none →
      loadErr (pgInitializeLocalDataTeamRepos client fuel s teamID).2.2 = none) := by
  have h1 := pgInitializeLocalDataTeams_done client fuel s hm hd
  have h2 := pgInitializeLocalDataTeamRepos_done client fuel s teamID hmr hdr
  refine ⟨h1, h2, ?_, ?_⟩
  · intro hnil
    rw [h1]
    simp [loadErr, hnil]
  · intro hnil
    rw [h2]
    simp [loadErr, hnil]

/-- A state in which both the teams load and team 7's children load have
completed successfully, with team 99 and repository name "nope" absent. -/
def sDoneState : PGState :=
  { pgInitialState with
    pgDoneGetAllTeams := true
    pgMutexInitializeLocalDataTeamRepos := [(7, false)]
    pgDoneGetAllTeamRepos := [(7, true)]
    pgReposByTeamIdAndRepoName := [(7, [])] }

theorem c7_load_at_most_once_witness :
    mapGetD sDoneState.pgDoneGetAllTeamRepos 7 false = true ∧
    (pgInitializeLocalDataTeams clientEmpty 5 sDoneState =
      ([], [MutexId.teams], LoadOutcome.ret sDoneState sDoneState.pgGetAllTeamsResponse.err) ∧
    pgInitializeLocalDataTeamRepos clientEmpty 5 sDoneState 7 =
      ([], [MutexId.teamRepos 7],
        LoadOutcome.ret sDoneState sDoneState.pgGetAllTeamReposResponse.err) ∧
    (sDoneState.pgGetAllTeamsResponse.err = none →
      loadErr (pgInitializeLocalDataTeams clientEmpty 5 sDoneState).2.2 = none) ∧
    (sDoneState.pgGetAllTeamReposResponse.err = none →
      loadErr (pgInitializeLocalDataTeamRepos clientEmpty 5 sDoneState 7).2.2 = none)) :=
  ⟨by decide,
    c7_load_at_most_once clientEmpty 5 sDoneState 7 (by decide) (by decide) (by decide)
      (by decide)⟩

/-- C5: after a successful load (completion flag set, stored error nil), a
lookup whose key is absent from the fully loaded index returns the locally
synthesized 404 `ErrorResponse` — never a nil error and never a transport
error — for all three lookup entry points. -/
theorem c5_not_found_synthesized (client : Client) (fuel : Nat) (s : PGState)
    (id : Int) (slug : String) (teamID : Int) (name : String)
    (hm : s.pgMutexInitializeLocalDataTeams = false)
    (hd : s.pgDoneGetAllTeams = true)
    (herrnil : s.pgGetAllTeamsResponse.err = none)
    (hmr : mapGet s.pgMutexInitializeLocalDataTeamRepos teamID = some false)
    (hdr : mapGetD s.pgDoneGetAllTeamRepos teamID false = true)
    (herrnil2 : s.pgGetAllTeamReposResponse.err = none)
    (habsId : mapGet s.pgTeamsByTeamId id = none)
    (habsSlug : mapGet s.pgTeamsByTeamSlug slug = none)
    (habsRepo : (mapGet s.pgReposByTeamIdAndRepoName teamID).bind
      (fun m => mapGet m name) = none) :
    pgGetTeamByTeamId client fuel s id =
      ([], [MutexId.teams],
        LookupOutcome.ret s none s.pgGetAllTeamsResponse.resp
          (some (GoError.errorResponse 404))) ∧
    pgGetTeamByTeamSlug client fuel s slug =
      ([], [MutexId.teams],
        LookupOutcome.ret s none s.pgGetAllTeamsResponse.resp
          (some (GoError.errorResponse 404))) ∧
    pgGetRepoByTeamIDAndRepoName client fuel s teamID name =
      ([], [MutexId.teamRepos teamID],
        LookupOutcome.ret s none s.pgGetAllTeamReposResponse.resp
          (some (GoError.errorResponse 404))) :=
  ⟨pgGetTeamByTeamId_notfound client fuel s id hm hd herrnil habsId,
   pgGetTeamByTeamSlug_notfound client fuel s slug hm hd herrnil habsSlug,
   pgGetRepoByTeamIDAndRepoName_notfound client fuel s teamID name hmr hdr herrnil2 habsRepo⟩

theorem c5_not_found_synthesized_witness :
    mapGet sDoneState.pgTeamsByTeamId 99 = none ∧
    (pgGetTeamByTeamId clientEmpty 5 sDoneState 99 =
      ([], [MutexId.teams],
        LookupOutcome.ret sDoneState none sDoneState.pgGetAllTeamsResponse.resp
          (some (GoError.errorResponse 404))) ∧
    pgGetTeamByTeamSlug clientEmpty 5 sDoneState "nope" =
      ([], [MutexId.teams],
        LookupOutcome.ret sDoneState none sDoneState.pgGetAllTeamsResponse.resp
          (some (GoError.errorResponse 404))) ∧
    pgGetRepoByTeamIDAndRepoName clientEmpty 5 sDoneState 7 "nope" =
      ([], [MutexId.teamRepos 7],
        LookupOutcome.ret sDoneState none sDoneState.pgGetAllTeamReposResponse.resp
          (some (GoError.errorResponse 404)))) :=
  ⟨by decide,
    c5_not_found_synthesized clientEmpty 5 sDoneState 99 "nope" 7 "nope" (by decide) (by decide)
      (by decide) (by decide) (by decide) (by decide) (by decide) (by decide) (by decide)⟩

/-- A client whose teams listing has a single team on a single short page. -/
def clientOneTeam : Client where
  listTeams := fun _ _ _ =>
    { teams := [{ id := 7, slug := "seven", data := 0 }], resp := some 3, err := none }
  listTeamReposByID := fun _ _ _ _ => { repos := [], resp := none, err := none }

theorem c6_teams_pagination_terminates_witness :
    (clientOneTeam.listTeams pgGithubOrgName 100 (1 + 0)).teams.length < 100 ∧
    (∃ s1,
      pgInitializeLocalDataTeams clientOneTeam 1 pgInitialState =
        ((List.range (0 + 1)).map (fun i => FetchCall.listTeams pgGithubOrgName 100 (1 + i)),
         [MutexId.teams], LoadOutcome.ret s1 none) ∧
      (pgInitializeLocalDataTeams clientOneTeam 1 pgInitialState).1.length = 0 + 1 ∧
      (∀ t ∈ teamsPages clientOneTeam 1 (0 + 1),
        (mapGet s1.pgTeamsByTeamId t.id).isSome = true ∧
        (mapGet s1.pgTeamsByTeamSlug t.slug).isSome = true)) :=
  ⟨by decide,
    c6_teams_pagination_terminates clientOneTeam 1 0 pgInitialState rfl rfl
      (fun i h => absurd h (Nat.not_lt_zero i)) rfl (by decide) (by decide)⟩

theorem c4_team_index_consistency_witness :
    (∀ t ∈ teamsPages clientOneTeam 1 (0 + 1), ∀ u ∈ teamsPages clientOneTeam 1 (0 + 1),
      u.id = t.id → u = t) ∧
    (∃ s1,
      (pgInitializeLocalDataTeams clientOneTeam 1 pgInitialState).2.2 =
        LoadOutcome.ret s1 none ∧
      ∀ t ∈ teamsPages clientOneTeam 1 (0 + 1), ∀ fuel2 : Nat,
        pgGetTeamByTeamId clientOneTeam fuel2 s1 t.id =
          ([], [MutexId.teams],
            LookupOutcome.ret s1 (some t) s1.pgGetAllTeamsResponse.resp none) ∧
        pgGetTeamByTeamSlug clientOneTeam fuel2 s1 t.slug =
          ([], [MutexId.teams],
            LookupOutcome.ret s1 (some t) s1.pgGetAllTeamsResponse.resp none)) :=
  ⟨by decide,
    c4_team_index_consistency clientOneTeam 1 0 pgInitialState rfl rfl
      (fun i h => absurd h (Nat.not_lt_zero i)) rfl (by decide) (by decide) (by decide)
      (by decide)⟩

/-- C8: for a registered team whose children listing returns an empty,
error-free first page, the children load terminates after that single page
fetch, stores an empty name-index for the team, sets the team's completion
flag, and a subsequent `pgGetRepoByTeamIDAndRepoName` for that team and any
name returns the synthesized 404 not-found error, not a transport error. -/
theorem c8_empty_children (client : Client) (fuel : Nat) (s : PGState) (teamID : Int)
    (hmr : mapGet s.pgMutexInitializeLocalDataTeamRepos teamID = some false)
    (hdr : mapGetD s.pgDoneGetAllTeamRepos teamID false = false)
    (hrepos : (client.listTeamReposByID pgGithubOrgId teamID 100 1).repos = [])
    (herr : (client.listTeamReposByID pgGithubOrgId teamID 100 1).err = none)
    (hfuel : 0 < fuel) :
    ∃ s1,
      pgInitializeLocalDataTeamRepos client fuel s teamID =
        ([FetchCall.listTeamReposByID pgGithubOrgId teamID 100 1],
         [MutexId.teamRepos teamID], LoadOutcome.ret s1 none) ∧
      mapGet s1.pgReposByTeamIdAndRepoName teamID = some [] ∧
      mapGetD s1.pgDoneGetAllTeamRepos teamID false = true ∧
      s1.pgGetAllTeamReposResponse.err = none ∧
      (∀ (name : String) (fuel2 : Nat),
        pgGetRepoByTeamIDAndRepoName client fuel2 s1 teamID name =
          ([], [MutexId.teamRepos teamID],
            LookupOutcome.ret s1 none s1.pgGetAllTeamReposResponse.resp
              (some (GoError.errorResponse 404)))) := by
  obtain ⟨f, rfl⟩ : ∃ f, fuel = f + 1 := ⟨fuel - 1, by omega⟩
  refine ⟨{ s with
      pgGetAllTeamReposResponse := client.listTeamReposByID pgGithubOrgId teamID 100 1
      pgReposByTeamIdAndRepoName := mapSet s.pgReposByTeamIdAndRepoName teamID []
      pgDoneGetAllTeamRepos := mapSet s.pgDoneGetAllTeamRepos teamID true }, ?_, ?_, ?_, ?_, ?_⟩
  · simp only [pgInitializeLocalDataTeamRepos, pgReposLoop, hmr, hdr, hrepos, herr,
      withTeamReposResp, List.foldl_nil, List.length_nil, mapSet_mapSet,
      mapSet_eq_of_mapGet _ _ _ hmr]
    simp [herr]
    rw [mapSet_mapSet]
    exact mapSet_eq_of_mapGet _ _ _ hmr
  · exact mapGet_mapSet_self _ _ _
  · simp [mapGetD, mapGet_mapSet_self]
  · exact herr
  · intro name fuel2
    apply pgGetRepoByTeamIDAndRepoName_notfound
    · exact hmr
    · simp [mapGetD, mapGet_mapSet_self]
    · exact herr
    · simp [mapGet_mapSet_self, mapGet]

theorem c8_empty_children_witness :
    (clientEmpty.listTeamReposByID pgGithubOrgId 42 100 1).repos = [] ∧
    (∃ s1,
      pgInitializeLocalDataTeamRepos clientEmpty 1
        { pgInitialState with pgMutexInitializeLocalDataTeamRepos := [(42, false)] } 42 =
        ([FetchCall.listTeamReposByID pgGithubOrgId 42 100 1],
         [MutexId.teamRepos 42], LoadOutcome.ret s1 none) ∧
      mapGet s1.pgReposByTeamIdAndRepoName 42 = some [] ∧
      mapGetD s1.pgDoneGetAllTeamRepos 42 false = true ∧
      s1.pgGetAllTeamReposResponse.err = none ∧
      (∀ (name : String) (fuel2 : Nat),
        pgGetRepoByTeamIDAndRepoName clientEmpty fuel2 s1 42 name =
          ([], [MutexId.teamRepos 42],
            LookupOutcome.ret s1 none s1.pgGetAllTeamReposResponse.resp
              (some (GoError.errorResponse 404))))) :=
  ⟨by decide,
    c8_empty_children clientEmpty 1
      { pgInitialState with pgMutexInitializeLocalDataTeamRepos := [(42, false)] } 42
      (by decide) (by decide) (by decide) (by decide) (by decide)⟩

/-- Every `Lock` invocation of a children load for `teamID` targets that team's
own mutex. -/
theorem pgInitializeLocalDataTeamRepos_locks (client : Client) (fuel : Nat) (s : PGState)
    (teamID : Int) :
    ∀ m ∈ (pgInitializeLocalDataTeamRepos client fuel s teamID).2.1,
      m = MutexId.teamRepos teamID := by
  intro m hm
  simp only [pgInitializeLocalDataTeamRepos] at hm
  rcases hget : mapGet s.pgMutexInitializeLocalDataTeamRepos teamID with _ | b
  · rw [hget] at hm
    simp at hm
  · rw [hget] at hm
    cases b
    · simp only at hm
      by_cases hdone : mapGetD s.pgDoneGetAllTeamRepos teamID false = true
      · simp only [hdone, if_pos] at hm
        simp at hm
        exact hm
      · simp only [eq_false_of_ne_true hdone, Bool.false_eq_true, if_false] at hm
        obtain ⟨calls, ex, hloop⟩ :
            ∃ calls ex,
              pgReposLoop client fuel teamID 1 []
                ({ s with pgMutexInitializeLocalDataTeamRepos := mapSet s.pgMutexInitializeLocalDataTeamRepos teamID true }) = (calls, ex) :=
          ⟨_, _, rfl⟩
        rw [hloop] at hm
        cases ex <;> simp at hm <;> exact hm
    · simp at hm
      exact hm

/-- A children load for `teamID` can come back `blocked` only when `teamID`'s
own mutex is already held at entry. -/
theorem pgInitializeLocalDataTeamRepos_blocked (client : Client) (fuel : Nat) (s : PGState)
    (teamID : Int)
    (hb : (pgInitializeLocalDataTeamRepos client fuel s teamID).2.2 = LoadOutcome.blocked) :
    mapGet s.pgMutexInitializeLocalDataTeamRepos teamID = some true := by
  simp only [pgInitializeLocalDataTeamRepos] at hb
  rcases hget : mapGet s.pgMutexInitializeLocalDataTeamRepos teamID with _ | b
  · rw [hget] at hb
    simp at hb
  · rw [hget] at hb
    cases b
    · simp only at hb
      by_cases hdone : mapGetD s.pgDoneGetAllTeamRepos teamID false = true
      · simp only [hdone, if_pos] at hb
        simp at hb
      · simp only [eq_false_of_ne_true hdone, Bool.false_eq_true, if_false] at hb
        obtain ⟨calls, ex, hloop⟩ :
            ∃ calls ex,
              pgReposLoop client fuel teamID 1 []
                ({ s with pgMutexInitializeLocalDataTeamRepos := mapSet s.pgMutexInitializeLocalDataTeamRepos teamID true }) = (calls, ex) :=
          ⟨_, _, rfl⟩
        rw [hloop] at hb
        cases ex <;> simp at hb
    · rfl

/-- C9: children loads for two distinct teams are guarded by disjoint mutexes:
every `Lock` attempt of team `a`'s children load targets `a`'s own per-team
mutex, is therefore never an attempt on team `b`'s mutex, and the load can
block only when `a`'s own mutex is already held — so loading children for two
distinct registered teams never makes either caller block on the other team's
mutex. -/
theorem c9_per_team_mutex_independence (client : Client) (fuel : Nat) (s : PGState)
    (a b : Int) (hab : a ≠ b) :
    (∀ m ∈ (pgInitializeLocalDataTeamRepos client fuel s a).2.1, m = MutexId.teamRepos a) ∧
    (∀ m ∈ (pgInitializeLocalDataTeamRepos client fuel s a).2.1,
      m ∉ (pgInitializeLocalDataTeamRepos client fuel s b).2.1) ∧
    ((pgInitializeLocalDataTeamRepos client fuel s a).2.2 = LoadOutcome.blocked →
      mapGet s.pgMutexInitializeLocalDataTeamRepos a = some true) := by
  refine ⟨pgInitializeLocalDataTeamRepos_locks client fuel s a, ?_,
    pgInitializeLocalDataTeamRepos_blocked client fuel s a⟩
  intro m hma hmb
  have h1 := pgInitializeLocalDataTeamRepos_locks client fuel s a m hma
  have h2 := pgInitializeLocalDataTeamRepos_locks client fuel s b m hmb
  rw [h1] at h2
  injection h2 with h3
  exact hab h3

theorem c9_per_team_mutex_independence_witness :
    (1 : Int) ≠ 2 ∧
    ((∀ m ∈ (pgInitializeLocalDataTeamRepos clientEmpty 3 pgInitialState 1).2.1,
        m = MutexId.teamRepos 1) ∧
     (∀ m ∈ (pgInitializeLocalDataTeamRepos clientEmpty 3 pgInitialState 1).2.1,
        m ∉ (pgInitializeLocalDataTeamRepos clientEmpty 3 pgInitialState 2).2.1) ∧
     ((pgInitializeLocalDataTeamRepos clientEmpty 3 pgInitialState 1).2.2 =
        LoadOutcome.blocked →
      mapGet pgInitialState.pgMutexInitializeLocalDataTeamRepos 1 = some true)) :=
  ⟨by decide, c9_per_team_mutex_independence clientEmpty 3 pgInitialState 1 2 (by decide)⟩

/-- Every page fetch issued by the children pagination loop for `teamID` is a
`ListTeamReposByID` call for the fixed org id, that team, and page size 100. -/
theorem pgReposLoop_calls (client : Client) (teamID : Int) :
    ∀ (fuel page : Nat) (m : List (String × Repository)) (s : PGState),
      ∀ c ∈ (pgReposLoop client fuel teamID page m s).1,
        ∃ p, c = FetchCall.listTeamReposByID pgGithubOrgId teamID 100 p := by
  intro fuel
  induction fuel with
  | zero =>
    intro page m s c hc
    simp [pgReposLoop] at hc
  | succ f ih =>
    intro page m s c hc
    simp only [pgReposLoop] at hc
    rcases herr : (client.listTeamReposByID pgGithubOrgId teamID 100 page).err with _ | e
    · rw [herr] at hc
      by_cases hlen : (client.listTeamReposByID pgGithubOrgId teamID 100 page).repos.length < 100
      · rw [if_pos hlen] at hc
        simp at hc
        exact ⟨page, hc⟩
      · rw [if_neg hlen] at hc
        simp at hc
        rcases hc with hc | hc
        · exact ⟨page, hc⟩
        · exact ih (page + 1) _ _ c hc
    · rw [herr] at hc
      simp at hc
      exact ⟨page, hc⟩

/-- Every page fetch issued by a children ensure-load call for `teamID` is a
`ListTeamReposByID` call for that team; in particular it never issues an
organization-teams listing. -/
theorem pgInitializeLocalDataTeamRepos_calls (client : Client) (fuel : Nat) (s : PGState)
    (teamID : Int) :
    ∀ c ∈ (pgInitializeLocalDataTeamRepos client fuel s teamID).1,
      ∃ p, c = FetchCall.listTeamReposByID pgGithubOrgId teamID 100 p := by
  intro c hc
  simp only [pgInitializeLocalDataTeamRepos] at hc
  rcases hget : mapGet s.pgMutexInitializeLocalDataTeamRepos teamID with _ | b
  · rw [hget] at hc
    simp at hc
  · rw [hget] at hc
    cases b
    · simp only at hc
      by_cases hdone : mapGetD s.pgDoneGetAllTeamRepos teamID false = true
      · simp only [hdone, if_pos] at hc
        simp at hc
      · simp only [eq_false_of_ne_true hdone, Bool.false_eq_true, if_false] at hc
        obtain ⟨calls, ex, hloop⟩ :
            ∃ calls ex,
              pgReposLoop client fuel teamID 1 []
                ({ s with pgMutexInitializeLocalDataTeamRepos := mapSet s.pgMutexInitializeLocalDataTeamRepos teamID true }) = (calls, ex) :=
          ⟨_, _, rfl⟩
        rw [hloop] at hc
        have hcalls : ∀ c2 ∈ calls,
            ∃ p, c2 = FetchCall.listTeamReposByID pgGithubOrgId teamID 100 p := by
          intro c2 hc2
          exact pgReposLoop_calls client teamID fuel 1 _ _ c2 (by rw [hloop]; exact hc2)
        cases ex <;> simp at hc <;> exact hcalls c hc
    · simp at hc

/-- The fetch-call and lock traces of `pgGetRepoByTeamIDAndRepoName` are exactly
those of the children ensure-load call it makes. -/
theorem pgGetRepoByTeamIDAndRepoName_trace (client : Client) (fuel : Nat) (s : PGState)
    (teamID : Int) (name : String) :
    (pgGetRepoByTeamIDAndRepoName client fuel s teamID name).1 =
      (pgInitializeLocalDataTeamRepos client fuel s teamID).1 ∧
    (pgGetRepoByTeamIDAndRepoName client fuel s teamID name).2.1 =
      (pgInitializeLocalDataTeamRepos client fuel s teamID).2.1 := by
  obtain ⟨calls, locks, out, h⟩ :
      ∃ calls locks out,
        pgInitializeLocalDataTeamRepos client fuel s teamID = (calls, locks, out) :=
    ⟨_, _, _, rfl⟩
  simp only [pgGetRepoByTeamIDAndRepoName, h]
  cases out <;> simp

/-- C2 (amended): a child-resource lookup drives only the Team-Children Loader
for its team — every page fetch it issues is a children listing for that team
(never an organization-teams listing), every mutex it touches is that team's
own — and when the team's per-team mutex was never registered by a prior teams
load (for example on the first operation of the process, or for a `teamID`
that is not a team of the organization), the call faults with a nil-mutex
dereference instead of being well-defined. -/
theorem c2_repo_lookup_scope (client : Client) (fuel : Nat) (s : PGState)
    (teamID : Int) (name : String) :
    (∀ c ∈ (pgGetRepoByTeamIDAndRepoName client fuel s teamID name).1,
      ∃ p, c = FetchCall.listTeamReposByID pgGithubOrgId teamID 100 p) ∧
    (∀ m ∈ (pgGetRepoByTeamIDAndRepoName client fuel s teamID name).2.1,
      m = MutexId.teamRepos teamID) ∧
    (mapGet s.pgMutexInitializeLocalDataTeamRepos teamID = none →
      pgGetRepoByTeamIDAndRepoName client fuel s teamID name =
        ([], [], LookupOutcome.panicked)) := by
  refine ⟨?_, ?_, ?_⟩
  · intro c hc
    rw [(pgGetRepoByTeamIDAndRepoName_trace client fuel s teamID name).1] at hc
    exact pgInitializeLocalDataTeamRepos_calls client fuel s teamID c hc
  · intro m hm
    rw [(pgGetRepoByTeamIDAndRepoName_trace client fuel s teamID name).2] at hm
    exact pgInitializeLocalDataTeamRepos_locks client fuel s teamID m hm
  · intro hnone
    simp only [pgGetRepoByTeamIDAndRepoName, pgInitializeLocalDataTeamRepos, hnone]

/-- C2 counterexample: as the very first operation of the process (initial
state, team 42 never registered), `pgGetRepoByTeamIDAndRepoName` does not
drive the Organization-Teams Loader (it issues no fetch at all) and faults
with a nil-mutex dereference, refuting that the call is well-defined there. -/
theorem c2_first_operation_panics :
    pgGetRepoByTeamIDAndRepoName clientEmpty 3 pgInitialState 42 "x" =
      ([], [], LookupOutcome.panicked) := by decide

theorem c2_repo_lookup_scope_witness :
    mapGet pgInitialState.pgMutexInitializeLocalDataTeamRepos 42 = none ∧
    pgGetRepoByTeamIDAndRepoName clientEmpty 3 pgInitialState 42 "y" =
      ([], [], LookupOutcome.panicked) :=
  ⟨by decide, (c2_repo_lookup_scope clientEmpty 3 pgInitialState 42 "y").2.2 (by decide)⟩

/-- C3 (amended): when a team's children load has completed, a lookup for that
team returns the response and error of the single global
`pgGetAllTeamReposResponse` holder shared by all teams' children loads (the
error possibly replaced by the synthesized 404) — not a per-team record. -/
theorem c3_shared_repos_holder (client : Client) (fuel : Nat) (s : PGState)
    (teamID : Int) (name : String)
    (hmr : mapGet s.pgMutexInitializeLocalDataTeamRepos teamID = some false)
    (hdr : mapGetD s.pgDoneGetAllTeamRepos teamID false = true) :
    ∃ v e,
      pgGetRepoByTeamIDAndRepoName client fuel s teamID name =
        ([], [MutexId.teamRepos teamID],
          LookupOutcome.ret s v s.pgGetAllTeamReposResponse.resp e) ∧
      (e = s.pgGetAllTeamReposResponse.err ∨ e = some (GoError.errorResponse 404)) := by
  have hdone := pgInitializeLocalDataTeamRepos_done client fuel s teamID hmr hdr
  rcases hfind : (mapGet s.pgReposByTeamIdAndRepoName teamID).bind (fun m => mapGet m name)
    with _ | repo
  · rcases herr : s.pgGetAllTeamReposResponse.err with _ | e0
    · exact ⟨none, some (GoError.errorResponse 404),
        by simp only [pgGetRepoByTeamIDAndRepoName, hdone, hfind, herr], Or.inr rfl⟩
    · exact ⟨none, some e0,
        by simp only [pgGetRepoByTeamIDAndRepoName, hdone, hfind, herr], Or.inl rfl⟩
  · exact ⟨some repo, s.pgGetAllTeamReposResponse.err,
      by simp only [pgGetRepoByTeamIDAndRepoName, hdone, hfind], Or.inl rfl⟩

/-- A client with two teams; team 1's children listing carries response token
11, team 2's carries response token 22. -/
def c3Client : Client where
  listTeams := fun _ _ _ =>
    { teams := [{ id := 1, slug := "one", data := 0 }, { id := 2, slug := "two", data := 0 }],
      resp := some 1, err := none }
  listTeamReposByID := fun _ teamId _ _ =>
    if teamId = 1 then { repos := [{ name := "r", data := 0 }], resp := some 11, err := none }
    else { repos := [{ name := "q", data := 0 }], resp := some 22, err := none }

/-- State after the teams load of `c3Client`. -/
def c3AfterTeams : PGState :=
  loadState (pgInitializeLocalDataTeams c3Client 9 pgInitialState).2.2

/-- State after additionally loading team 1's children. -/
def c3AfterTeam1 : PGState :=
  loadState (pgInitializeLocalDataTeamRepos c3Client 9 c3AfterTeams 1).2.2

/-- State after additionally loading team 2's children. -/
def c3AfterTeam2 : PGState :=
  loadState (pgInitializeLocalDataTeamRepos c3Client 9 c3AfterTeam1 2).2.2

/-- C3 counterexample: the same lookup (team 1, name "r") returns transport
response 11 before team 2's children load and response 22 after it — the
interleaved load of a different team's children changes what the lookup for
team 1 returns, because the `LoadResult` holder is global, not per team.  (The
lookup between the two loads leaves the state unchanged, so the sequence is a
real sequential trace.) -/
theorem c3_other_team_load_changes_lookup :
    (pgGetRepoByTeamIDAndRepoName c3Client 9 c3AfterTeam1 1 "r").2.2 =
      LookupOutcome.ret c3AfterTeam1 (some { name := "r", data := 0 }) (some 11) none ∧
    lookupResp (pgGetRepoByTeamIDAndRepoName c3Client 9 c3AfterTeam1 1 "r").2.2 = some 11 ∧
    lookupResp (pgGetRepoByTeamIDAndRepoName c3Client 9 c3AfterTeam2 1 "r").2.2 = some 22 := by
  decide

theorem c3_shared_repos_holder_witness :
    mapGetD c3AfterTeam1.pgDoneGetAllTeamRepos 1 false = true ∧
    (∃ v e,
      pgGetRepoByTeamIDAndRepoName c3Client 9 c3AfterTeam1 1 "zzz" =
        ([], [MutexId.teamRepos 1],
          LookupOutcome.ret c3AfterTeam1 v c3AfterTeam1.pgGetAllTeamReposResponse.resp e) ∧
      (e = c3AfterTeam1.pgGetAllTeamReposResponse.err ∨
        e = some (GoError.errorResponse 404))) :=
  ⟨by decide, c3_shared_repos_holder c3Client 9 c3AfterTeam1 1 "zzz" (by decide) (by decide)⟩

/-- A client whose teams listing fails on its first page. -/
def c1TeamsFailClient : Client where
  listTeams := fun _ _ _ =>
    { teams := [], resp := some 1, err := some (GoError.transport "boom") }
  listTeamReposByID := fun _ _ _ _ => { repos := [], resp := none, err := none }

/-- A client with one team (7) whose children listing fails on its first page. -/
def c1ReposFailClient : Client where
  listTeams := fun _ _ _ =>
    { teams := [{ id := 7, slug := "seven", data := 0 }], resp := some 1, err := none }
  listTeamReposByID := fun _ _ _ _ =>
    { repos := [], resp := some 2, err := some (GoError.transport "crash") }

/-- State after the failed first teams load of `c1TeamsFailClient`. -/
def c1TeamsFailState : PGState :=
  loadState (pgInitializeLocalDataTeams c1TeamsFailClient 5 pgInitialState).2.2

/-- State after the successful teams load of `c1ReposFailClient` (team 7
registered). -/
def c1ReposBaseState : PGState :=
  loadState (pgInitializeLocalDataTeams c1ReposFailClient 5 pgInitialState).2.2

/-- State after the failed first children load of team 7. -/
def c1ReposFailState : PGState :=
  loadState (pgInitializeLocalDataTeamRepos c1ReposFailClient 5 c1ReposBaseState 7).2.2

/-- C1: on a page error both loaders stop and record and return the error with
the completion flag left unset — but the early `return err` (lines 77 and 111)
skips the `Unlock`, so the mutex is left held and the next call to the same
ensure-load function blocks forever instead of re-attempting the pagination:
the code contradicts the documented release-and-retry behaviour. -/
theorem c1_error_return_keeps_mutex_held :
    (pgInitializeLocalDataTeams c1TeamsFailClient 5 pgInitialState =
      ([FetchCall.listTeams pgGithubOrgName 100 1], [MutexId.teams],
        LoadOutcome.ret c1TeamsFailState (some (GoError.transport "boom"))) ∧
     c1TeamsFailState.pgMutexInitializeLocalDataTeams = true ∧
     c1TeamsFailState.pgDoneGetAllTeams = false ∧
     pgInitializeLocalDataTeams c1TeamsFailClient 5 c1TeamsFailState =
      ([], [MutexId.teams], LoadOutcome.blocked)) ∧
    (pgInitializeLocalDataTeamRepos c1ReposFailClient 5 c1ReposBaseState 7 =
      ([FetchCall.listTeamReposByID pgGithubOrgId 7 100 1], [MutexId.teamRepos 7],
        LoadOutcome.ret c1ReposFailState (some (GoError.transport "crash"))) ∧
     mapGet c1ReposFailState.pgMutexInitializeLocalDataTeamRepos 7 = some true ∧
     mapGetD c1ReposFailState.pgDoneGetAllTeamRepos 7 false = false ∧
     pgInitializeLocalDataTeamRepos c1ReposFailClient 5 c1ReposFailState 7 =
      ([], [MutexId.teamRepos 7], LoadOutcome.blocked)) := by
  decide

/-- One hundred distinct teams for the first page of `c10Client`. -/
def c10Teams : List Team :=
  (List.range 100).map (fun i => { id := Int.ofNat i, slug := toString i, data := 0 })

/-- A client whose teams listing returns a full first page (100 teams) and then
fails on page 2. -/
def c10Client : Client where
  listTeams := fun _ _ page =>
    if page = 1 then { teams := c10Teams, resp := some 1, err := none }
    else { teams := [], resp := some 2, err := some (GoError.transport "boom") }
  listTeamReposByID := fun _ _ _ _ => { repos := [], resp := none, err := none }

/-- C10: the team lookups ignore the error returned by the ensure-load call and
consult the indices unconditionally; a teams load that indexes page 1 and then
fails on page 2 leaves page 1's teams indexed, so the caller that triggered the
failed load receives a non-nil Team together with the non-nil transport error
from both `pgGetTeamByTeamId` and `pgGetTeamByTeamSlug`. -/
theorem c10_halfway_index_with_error :
    loadErr (pgInitializeLocalDataTeams c10Client 9 pgInitialState).2.2 =
      some (GoError.transport "boom") ∧
    lookupVal (pgGetTeamByTeamId c10Client 9 pgInitialState 5).2.2 =
      some { id := 5, slug := "5", data := 0 } ∧
    lookupErr (pgGetTeamByTeamId c10Client 9 pgInitialState 5).2.2 =
      some (GoError.transport "boom") ∧
    lookupVal (pgGetTeamByTeamSlug c10Client 9 pgInitialState "5").2.2 =
      some { id := 5, slug := "5", data := 0 } ∧
    lookupErr (pgGetTeamByTeamSlug c10Client 9 pgInitialState "5").2.2 =
      some (GoError.transport "boom") := by
  decide
